import Mathlib

/-!
Verification of the stale-VM reconciliation and cleanup engine of the
openstack-tool repository.

The repository contains two variants of the engine:
* package `cleanupvms` (src/cleanupvms/cleanupvms.go), the simpler variant;
* package `cleannovastalevms` (the clean-nova-stale-vms subsystem), the
  hardened variant with retries, bounded concurrency and JSON output.

The Go code is embedded shallowly: pure string processing is translated
function by function; the network (OpenStack API, SSH) and the interactive
terminal are modelled as an explicit environment (`World`, `SSHWorld`)
whose fields give the deterministic outcome of each external call, and the
side effects of a run are collected as an explicit trace of `Event`s.
Retries (`util.WithRetry`) collapse under a deterministic environment: a
call that fails keeps failing, so the retry wrapper returns exactly the
underlying outcome; the models therefore consult the environment once.
Go string primitives (`strings.Split`, `strings.TrimSpace`,
`strings.ToLower`, `strings.EqualFold`) are modelled on ASCII data, which
covers every string the tool manipulates (VM names, key=value fields,
confirmation tokens).
-/

namespace OpenStackTool

/-! ### Go string primitives (ASCII model) -/

/-- Model of `strings.ToLower` on one character, restricted to ASCII. -/
def lowerChar (c : Char) : Char :=
  if 65 ≤ c.toNat ∧ c.toNat ≤ 90 then Char.ofNat (c.toNat + 32) else c

/-- Model of `strings.ToLower`, restricted to ASCII. -/
def lowerString (s : String) : String :=
  String.mk (s.data.map lowerChar)

/-- Model of `strings.EqualFold`, restricted to ASCII case folding. -/
def equalFold (a b : String) : Bool :=
  lowerString a = lowerString b

/-- The white-space characters trimmed by `strings.TrimSpace`
(ASCII subset of `unicode.IsSpace`). -/
def isGoSpace (c : Char) : Bool :=
  c = ' ' || c = '\t' || c = '\n' || c = '\r' || c = Char.ofNat 11 || c = Char.ofNat 12

/-- Model of `strings.TrimSpace`. -/
def trimSpace (s : String) : String :=
  String.mk (((s.data.dropWhile isGoSpace).reverse.dropWhile isGoSpace).reverse)

/-- Splitting a character list at every occurrence of a separator
character; the recursion scheme of `strings.Split` for a one-character
separator (`strings.Split "" sep = [""]`, separators are not kept). -/
def splitChars (sep : Char) : List Char → List (List Char)
  | [] => [[]]
  | c :: cs =>
    if c = sep then [] :: splitChars sep cs
    else
      match splitChars sep cs with
      | [] => [[c]]
      | h :: t => (c :: h) :: t

/-- Model of Go `strings.Split s sep` for a one-character separator
(the only form the engine uses: separators "\n", "," and "="). -/
def goSplit (s : String) (sep : Char) : List String :=
  (splitChars sep s.data).map (fun cs => String.mk cs)

/-! ### Data model -/

/-- `cleanupvms.InstanceInfo` / `cleannovastalevms.InstanceInfo`:
instance name, tenant name and status of one control-plane VM
(and of one orphan record produced by `findMissingVms`). -/
structure InstanceInfo where
  InstanceName : String
  TenantName : String
  Status : String
deriving DecidableEq

/-- `cleanupvms.VM` / `cleannovastalevms.VM`: one VM of the remote
hypervisor inventory (name and power state). -/
structure VM where
  Name : String
  Status : String
deriving DecidableEq

/-- The two fields of `hypervisors.Hypervisor` the engine reads. -/
structure Hypervisor where
  hostIP : String
  hypervisorHostname : String
deriving DecidableEq

/-- The two fields of `projects.Project` the engine reads. -/
structure Project where
  id : String
  name : String
deriving DecidableEq

/-- The three fields of `servers.Server` the engine reads
(`Name`, `OS-EXT-SRV-ATTR:instance_name`, hypervisor hostname). -/
structure Server where
  name : String
  instanceName : String
  hypervisorHostname : String
deriving DecidableEq

/-! ### Remote inventory parsing

`fetchRemoteVMListSSH` (identical parsing loop in both variants) runs
`pvmctl vm list --display-fields LogicalPartition.name
LogicalPartition.state | awk '!/ltc.*-nova/'` on the hypervisor and parses
the output line by line.  The awk filter runs remotely and drops every
line matching the management-partition regular expression `ltc.*-nova`;
the Go loop then splits the remaining output on newlines, trims each
line, skips blank lines, splits each line on commas into `key=value`
fields, inserts well-formed fields into a map (later fields overwrite
earlier ones, as Go map assignment does), and emits a `VM` exactly when
both the `name` and the `state` keys are present. -/

/-- Does `needle` occur as a contiguous segment of `hay`? -/
def hasInfixOf (needle : List Char) : List Char → Bool
  | [] => needle.isEmpty
  | c :: cs => List.isPrefixOf needle (c :: cs) || hasInfixOf needle cs

/-- Does a character list match the regular expression `ltc.*-nova`
(an occurrence of "ltc" followed, possibly after other characters,
by an occurrence of "-nova")? -/
def hasLtcNova : List Char → Bool
  | [] => false
  | c :: cs =>
    (List.isPrefixOf ['l', 't', 'c'] (c :: cs)
      && hasInfixOf ['-', 'n', 'o', 'v', 'a'] (cs.drop 2))
    || hasLtcNova cs

/-- Go map lookup on the association-list model of `vmInfo`
(the most recently inserted binding is first). -/
def lookupKey : List (String × String) → String → Option String
  | [], _ => none
  | (k, v) :: rest, key => if k = key then some v else lookupKey rest key

/-- One iteration of the field loop: `parts := strings.Split(field, "=")`;
a field contributes a binding exactly when it splits into two parts, and
both key and value are trimmed.  Insertion is modelled by prepending, so
`lookupKey` sees the latest binding first, as a Go map does. -/
def lineStep (vmInfo : List (String × String)) (field : String) : List (String × String) :=
  match goSplit field '=' with
  | [k, v] => (trimSpace k, trimSpace v) :: vmInfo
  | _ => vmInfo

/-- The `vmInfo` map built from one (already trimmed) line. -/
def lineMap (line : String) : List (String × String) :=
  (goSplit line ',').foldl lineStep []

/-- One iteration of the line loop of `fetchRemoteVMListSSH`: trim,
skip blank lines, build the field map, and emit a `VM` exactly when both
`name` and `state` are present. -/
def parseLine (rawLine : String) : Option VM :=
  let line := trimSpace rawLine
  if line = "" then none
  else
    match lookupKey (lineMap line) "name", lookupKey (lineMap line) "state" with
    | some name, some state => some ⟨name, state⟩
    | _, _ => none

/-- The pure core of `fetchRemoteVMListSSH`, applied to the raw `pvmctl`
output: the remote awk filter drops management-partition lines, then the
Go loop parses each remaining line. -/
def fetchRemoteVMParse (raw : String) : List VM :=
  ((goSplit raw '\n').filter (fun l => !hasLtcNova l.data)).filterMap parseLine

/-! ### Reconciliation (`findMissingVms`) -/

namespace cleanupvms

/-- `cleanupvms.findMissingVms`: the simpler variant compares instance
names with Go `==`, i.e. exact string equality.  The inner loop with
`found`/`break` is `List.any` (first match short-circuits); append order
follows the remote list. -/
def findMissingVms (vmInstances : List InstanceInfo) (remoteVMs : List VM) : List InstanceInfo :=
  remoteVMs.foldl
    (fun missing remoteVM =>
      if vmInstances.any (fun i => i.InstanceName = remoteVM.Name) then missing
      else missing ++ [⟨remoteVM.Name, "Unknown", remoteVM.Status⟩])
    []

end cleanupvms

namespace cleannovastalevms

/-- `cleannovastalevms.findMissingVms`: the hardened variant compares
instance names with `strings.EqualFold` (case-insensitive). -/
def findMissingVms (vmInstances : List InstanceInfo) (remoteVMs : List VM) : List InstanceInfo :=
  remoteVMs.foldl
    (fun missing remoteVM =>
      if vmInstances.any (fun i => equalFold i.InstanceName remoteVM.Name) then missing
      else missing ++ [⟨remoteVM.Name, "Unknown", remoteVM.Status⟩])
    []

end cleannovastalevms

/-! ### The spec-side reconciliation contract

`specFindOrphans` is written from the specification text (section 4.3 /
section 8): the elements of R whose name has no case-insensitive match in
C, in the order of R, each emitted with tenant "Unknown" and the remote
state.  `specFindOrphansExact` is the same statement under exact name
equality; it is what the simpler variant actually implements. -/

def specFindOrphans (C : List InstanceInfo) (R : List VM) : List InstanceInfo :=
  (R.filter (fun r => !(C.any (fun c => equalFold c.InstanceName r.Name)))).map
    (fun r => ⟨r.Name, "Unknown", r.Status⟩)

def specFindOrphansExact (C : List InstanceInfo) (R : List VM) : List InstanceInfo :=
  (R.filter (fun r => !(C.any (fun c => c.InstanceName = r.Name)))).map
    (fun r => ⟨r.Name, "Unknown", r.Status⟩)

/-- The accumulator form of the `findMissingVms` loop, generically in the
match predicate, equals filter-then-map. -/
theorem findMissing_loop_eq (p : VM → Bool) (R : List VM) :
    ∀ acc : List InstanceInfo,
      R.foldl
        (fun missing remoteVM =>
          if p remoteVM then missing
          else missing ++ [⟨remoteVM.Name, "Unknown", remoteVM.Status⟩]) acc
      = acc ++ (R.filter (fun r => !p r)).map (fun r => ⟨r.Name, "Unknown", r.Status⟩) := by
  induction R with
  | nil => intro acc; simp
  | cons r R ih =>
    intro acc
    by_cases h : p r
    · simp [List.foldl_cons, h, ih]
    · simp [List.foldl_cons, h, ih, List.append_assoc]

/-- The hardened reconciliation implements the spec contract. -/
theorem findMissingVms_hardened_eq_spec (C : List InstanceInfo) (R : List VM) :
    cleannovastalevms.findMissingVms C R = specFindOrphans C R := by
  have h := findMissing_loop_eq (fun r => C.any (fun c => equalFold c.InstanceName r.Name)) R []
  simpa [cleannovastalevms.findMissingVms, specFindOrphans] using h

/-- The simpler reconciliation implements the exact-match contract. -/
theorem findMissingVms_simple_eq_specExact (C : List InstanceInfo) (R : List VM) :
    cleanupvms.findMissingVms C R = specFindOrphansExact C R := by
  have h := findMissing_loop_eq (fun r => C.any (fun c => c.InstanceName = r.Name)) R []
  simpa [cleanupvms.findMissingVms, specFindOrphansExact] using h

/-! ### Effects of the cleanup executor and of a run

External side effects are collected as a trace.  Printing is abstracted:
an event records the data a print statement reports, and the table/JSON
output formats of the hardened variant report the same data, so one event
covers both branches. -/

/-- One observable side effect of the engine. -/
inductive Event where
  /-- "No abandoned VMs to delete." (or the empty JSON list). -/
  | noOrphans
  /-- The dry-run report: the list of VMs that would be deleted. -/
  | dryRunReport (vms : List InstanceInfo)
  /-- The interactive confirmation prompt for `n` VMs (blocks on stdin). -/
  | prompt (n : Nat)
  /-- "Deletion aborted by user." -/
  | aborted
  /-- An `ssh.Dial` attempt to the hypervisor for the deletion phase. -/
  | dialAttempt
  /-- The dial failed; the whole deletion phase stops. -/
  | dialFailed
  /-- A `client.NewSession()` attempt for one VM. -/
  | sessionAttempt (name : String)
  /-- The per-VM session failed; the loop continues with the next VM. -/
  | sessionFailed (name : String)
  /-- A deletion command dispatched over a session (`CombinedOutput`). -/
  | deleteCmdRun (cmd : String)
  /-- The deletion command failed; its combined output is reported. -/
  | deleteFailed (name output : String)
  /-- The VM was deleted successfully. -/
  | deleteOk (name : String)
  /-- The control-plane inventory fetch goroutine was launched. -/
  | cpFetchAttempt
  /-- The remote (SSH) inventory fetch goroutine was launched. -/
  | remoteFetchAttempt
deriving DecidableEq

/-- The deterministic environment of the deletion phase: outcome of the
single `ssh.Dial`, and, for the `i`-th orphan of the list, the outcome of
its `NewSession` and of its deletion command (`Except.error out` is a
failed command with combined output `out`, `Except.ok out` a successful
one). -/
structure SSHWorld where
  dialOk : Bool
  sessionOk : Nat → Bool
  cmdResult : Nat → Except String String

/-- The deletion command template, parameterized by the VM name. -/
def deleteCmd (name : String) : String :=
  "pvmctl LogicalPartition delete --object-id name=" ++ name

/-- The body of the deletion loop for the `i`-th orphan: open a fresh
session (failure is recorded and skips to the next VM), dispatch the
deletion command, record success or failure with the captured output. -/
def perVM (w : SSHWorld) (i : Nat) (vm : InstanceInfo) : List Event :=
  if w.sessionOk i then
    Event.sessionAttempt vm.InstanceName ::
    Event.deleteCmdRun (deleteCmd vm.InstanceName) ::
    (match w.cmdResult i with
     | .ok _ => [Event.deleteOk vm.InstanceName]
     | .error out => [Event.deleteFailed vm.InstanceName out])
  else [Event.sessionAttempt vm.InstanceName, Event.sessionFailed vm.InstanceName]

/-- The `for _, vm := range abandonedVMs` deletion loop, strictly
sequential over one shared connection. -/
def deletionLoop (w : SSHWorld) : Nat → List InstanceInfo → List Event
  | _, [] => []
  | i, vm :: rest => perVM w i vm ++ deletionLoop w (i + 1) rest

/-- The confirmed deletion phase, shared verbatim by both variants:
one `ssh.Dial`; a dial failure aborts the whole phase before any per-VM
session; otherwise every orphan is processed in list order. -/
def confirmedDeletionPhase (w : SSHWorld) (vms : List InstanceInfo) : List Event :=
  Event.dialAttempt ::
  (if w.dialOk then deletionLoop w 0 vms else [Event.dialFailed])

namespace cleanupvms

/-- `cleanupvms.deleteAbandonedVMs`: empty list reports nothing to do;
dry-run reports the list and stops; otherwise prompt, read a line, abort
unless the lower-cased response is the token "yes", else run the
deletion phase. -/
def deleteAbandonedVMs (w : SSHWorld) (response : String)
    (abandonedVMs : List InstanceInfo) (dryRun : Bool) : List Event :=
  if abandonedVMs.length = 0 then [Event.noOrphans]
  else if dryRun then [Event.dryRunReport abandonedVMs]
  else
    Event.prompt abandonedVMs.length ::
    (if lowerString response ≠ "yes" then [Event.aborted]
     else confirmedDeletionPhase w abandonedVMs)

end cleanupvms

namespace cleannovastalevms

/-- `cleannovastalevms.deleteAbandonedVMs`: as the simpler variant, but
the confirmation token is "confirm" and an output-format selector chooses
between table and JSON rendering of the same data (so it does not change
the event trace). -/
def deleteAbandonedVMs (w : SSHWorld) (response : String)
    (abandonedVMs : List InstanceInfo) (dryRun : Bool)
    (outputFormat : String) : List Event :=
  if abandonedVMs.length = 0 then [Event.noOrphans]
  else if dryRun then [Event.dryRunReport abandonedVMs]
  else
    Event.prompt abandonedVMs.length ::
    (if lowerString response ≠ "confirm" then [Event.aborted]
     else confirmedDeletionPhase w abandonedVMs)

end cleannovastalevms

/-! ### The orchestrated run

The control-plane API, the remote shell and stdin are modelled by a
deterministic environment.  `remoteRaw` is the raw `pvmctl` output of the
inventory command on the hypervisor (before the awk filter), or the
collapsed dial/session/command failure of the inventory reader.  The
hardened variant's bounded per-project fan-out is modelled sequentially
in project enumeration order; the properties proved about it do not
depend on aggregation order. -/

structure World where
  /-- Value of the environment variable OS_REGION_NAME ("" when unset). -/
  regionName : String
  /-- `authenticateOpenStack` succeeds (simpler variant only). -/
  authOk : Bool
  /-- `verifyOpenStackAuthentication` succeeds (simpler variant only). -/
  identityClientOk : Bool
  /-- `openstack.NewComputeV2` succeeds inside the control-plane fetch
  (simpler variant only). -/
  computeClientOk : Bool
  /-- Outcome of listing and extracting hypervisors. -/
  hypervisorsResult : Except String (List Hypervisor)
  /-- Outcome of listing and extracting projects. -/
  projectsResult : Except String (List Project)
  /-- Outcome of listing the servers of one project, by project id. -/
  serversForProject : String → Except String (List Server)
  /-- Raw remote inventory output, or the inventory reader's failure. -/
  remoteRaw : Except String String
  /-- The deletion-phase SSH environment. -/
  ssh : SSHWorld
  /-- The line typed at the confirmation prompt. -/
  response : String

/-- `resolveHostname`: first hypervisor whose host IP equals `ip`
exactly, else the empty string. -/
def resolveHostname (ip : String) (hypervisorsList : List Hypervisor) : String :=
  match hypervisorsList.find? (fun h => h.hostIP = ip) with
  | some h => h.hypervisorHostname
  | none => ""

/-- `fetchVMsForProject` (identical filter logic in both variants): list
the project's servers, keep each server whose hypervisor hostname matches
the target case-insensitively and whose instance-name attribute is
non-empty (a server lacking it is skipped with a diagnostic). -/
def fetchVMsForProject (w : World) (project : Project)
    (hypervisorHostname : String) : Except String (List String) :=
  match w.serversForProject project.id with
  | .error e => .error e
  | .ok serversList =>
    .ok (serversList.foldl
      (fun acc server =>
        if equalFold server.hypervisorHostname hypervisorHostname then
          if server.instanceName ≠ "" then acc ++ [server.instanceName] else acc
        else acc)
      [])

/-- One iteration of the per-project aggregation loop shared by both
control-plane readers: a project whose fetch fails is skipped
(contributing nothing), a successful project appends its instances
tagged with its display name. -/
def cpStep (w : World) (hypervisorHostname : String)
    (acc : List InstanceInfo) (project : Project) : List InstanceInfo :=
  match fetchVMsForProject w project hypervisorHostname with
  | .error _ => acc
  | .ok instances => acc ++ instances.map (fun i => ⟨i, project.name, ""⟩)

/-- The per-project aggregation loop over the whole project list. -/
def cpAggregate (w : World) (hypervisorHostname : String)
    (projectList : List Project) : List InstanceInfo :=
  projectList.foldl (cpStep w hypervisorHostname) []

/-- `fetchRemoteVMListSSH` (identical in both variants; the hardened
retry collapses): dial, session and command failures abort the reader;
on success the raw output is parsed (the awk management-partition filter
runs inside the remote command). -/
def fetchRemoteVMListSSH (w : World) : Except String (List VM) :=
  match w.remoteRaw with
  | .error e => .error e
  | .ok raw => .ok (fetchRemoteVMParse raw)

namespace cleanupvms

/-- `cleanupvms.fetchOpenStackVMList`: requires OS_REGION_NAME, creates
the compute client, lists projects (each a fatal error), then aggregates
per project with per-project error isolation. -/
def fetchOpenStackVMList (w : World) (hypervisorHostname : String) :
    Except String (List InstanceInfo) :=
  if w.regionName = "" then .error "OS_REGION_NAME not set"
  else if !w.computeClientOk then .error "failed to create compute client"
  else
    match w.projectsResult with
    | .error e => .error ("error fetching projects: " ++ e)
    | .ok projectList => .ok (cpAggregate w hypervisorHostname projectList)

/-- `cleanupvms.Run`: authenticate, verify identity, fetch hypervisors,
resolve the IP, fetch both inventories concurrently (both goroutines are
launched; the OpenStack error is checked first after the join), reconcile,
and hand any orphans to `deleteAbandonedVMs`, whose outcome does not
affect the returned error. -/
def Run (w : World) (ip : String) (dryRun : Bool) :
    Except String Unit × List Event :=
  if !w.authOk then (.error "error authenticating OpenStack", [])
  else if !w.identityClientOk then (.error "authentication error", [])
  else
    match w.hypervisorsResult with
    | .error e => (.error ("error fetching hypervisor list: " ++ e), [])
    | .ok hypervisorsList =>
      let hypervisorHostname := resolveHostname ip hypervisorsList
      if hypervisorHostname = "" then
        (.error ("no matching hypervisor found for IP: " ++ ip), [])
      else
        let fetchEvents := [Event.cpFetchAttempt, Event.remoteFetchAttempt]
        match fetchOpenStackVMList w hypervisorHostname with
        | .error e => (.error ("error fetching OpenStack VM list: " ++ e), fetchEvents)
        | .ok openstackInstances =>
          match fetchRemoteVMListSSH w with
          | .error e => (.error ("error fetching remote VM list: " ++ e), fetchEvents)
          | .ok remoteVMs =>
            let missingVMs := findMissingVms openstackInstances remoteVMs
            if missingVMs.length = 0 then (.ok (), fetchEvents)
            else (.ok (), fetchEvents ++ deleteAbandonedVMs w.ssh w.response missingVMs dryRun)

end cleanupvms

namespace cleannovastalevms

/-- `cleannovastalevms.fetchOpenStackVMList`: the authenticated client is
passed in (no client creation here) and the region was checked by `Run`;
projects are listed (fatal on failure), then aggregated with per-project
error isolation over the bounded worker pool. -/
def fetchOpenStackVMList (w : World) (hypervisorHostname : String) :
    Except String (List InstanceInfo) :=
  match w.projectsResult with
  | .error e => .error ("error fetching projects: " ++ e)
  | .ok projectList => .ok (cpAggregate w hypervisorHostname projectList)

/-- `cleannovastalevms.Run`: checks OS_REGION_NAME first, before any
fetch; then fetches hypervisors, resolves the IP, fetches both
inventories concurrently, reports (table or JSON), and hands any orphans
to `deleteAbandonedVMs`, whose outcome does not affect the returned
error. -/
def Run (w : World) (ip outputFormat : String) (dryRun : Bool) :
    Except String Unit × List Event :=
  if w.regionName = "" then (.error "OS_REGION_NAME not set", [])
  else
    match w.hypervisorsResult with
    | .error e => (.error ("error fetching hypervisor list: " ++ e), [])
    | .ok hypervisorsList =>
      let hypervisorHostname := resolveHostname ip hypervisorsList
      if hypervisorHostname = "" then
        (.error ("no matching hypervisor found for IP: " ++ ip), [])
      else
        let fetchEvents := [Event.cpFetchAttempt, Event.remoteFetchAttempt]
        match fetchOpenStackVMList w hypervisorHostname with
        | .error e => (.error ("error fetching OpenStack VM list: " ++ e), fetchEvents)
        | .ok openstackInstances =>
          match fetchRemoteVMListSSH w with
          | .error e => (.error ("error fetching remote VM list: " ++ e), fetchEvents)
          | .ok remoteVMs =>
            let missingVMs := findMissingVms openstackInstances remoteVMs
            if missingVMs.length = 0 then (.ok (), fetchEvents)
            else
              (.ok (), fetchEvents ++
                deleteAbandonedVMs w.ssh w.response missingVMs dryRun outputFormat)

end cleannovastalevms

/-! ### Trace observations -/

/-- Is an event a dispatched deletion command? -/
def isDeleteCmdEvent : Event → Bool
  | .deleteCmdRun _ => true
  | _ => false

/-- Is an event a remote-shell dial attempt (deletion phase)? -/
def isDialEvent : Event → Bool
  | .dialAttempt => true
  | _ => false

/-- Number of deletion commands dispatched in a trace. -/
def countDeleteCmds (tr : List Event) : Nat :=
  (tr.filter isDeleteCmdEvent).length

/-- Number of remote-shell connections opened (attempted) in a trace. -/
def countDials (tr : List Event) : Nat :=
  (tr.filter isDialEvent).length

/-- The per-VM session attempts of a trace, in order. -/
def sessionAttemptNames (tr : List Event) : List String :=
  tr.filterMap (fun e =>
    match e with
    | .sessionAttempt n => some n
    | _ => none)

/-! ### Specification views of the line parser -/

/-- The binding contributed by one `key=value` field, if well formed
(exactly one "="), with key and value trimmed. -/
def fieldEntry (field : String) : Option (String × String) :=
  match goSplit field '=' with
  | [k, v] => some (trimSpace k, trimSpace v)
  | _ => none

/-- The value bound to `key` by the last field of the list that binds it
(later fields overwrite earlier ones, as Go map assignment does). -/
def lastValue (fields : List String) (key : String) : Option String :=
  match fields with
  | [] => none
  | field :: rest =>
    match lastValue rest key with
    | some v => some v
    | none =>
      match fieldEntry field with
      | some (k, v) => if k = key then some v else none
      | none => none

/-- `lineStep` in terms of `fieldEntry`. -/
theorem lineStep_eq_fieldEntry (m : List (String × String)) (f : String) :
    lineStep m f = match fieldEntry f with
                   | some (k, v) => (k, v) :: m
                   | none => m := by
  unfold lineStep fieldEntry
  cases h : goSplit f '=' with
  | nil => rfl
  | cons a t =>
    cases t with
    | nil => rfl
    | cons b t2 =>
      cases t2 with
      | nil => rfl
      | cons c t3 => rfl

/-- A field that does not split into exactly two parts contributes no
binding. -/
theorem fieldEntry_eq_none_of_len (field : String)
    (h : (goSplit field '=').length ≠ 2) : fieldEntry field = none := by
  unfold fieldEntry
  cases hs : goSplit field '=' with
  | nil => rfl
  | cons a t =>
    cases t with
    | nil => rfl
    | cons b t2 =>
      cases t2 with
      | nil => exact absurd (by rw [hs]; rfl) h
      | cons c t3 => rfl

/-- Looking a key up in the folded field map finds the last binding of
that key, falling back to the initial map. -/
theorem foldl_lineStep_lookup (key : String) :
    ∀ (fields : List String) (m : List (String × String)),
      lookupKey (fields.foldl lineStep m) key
        = match lastValue fields key with
          | some v => some v
          | none => lookupKey m key := by
  intro fields
  induction fields with
  | nil => intro m; simp [lastValue]
  | cons f fs ih =>
    intro m
    rw [List.foldl_cons, ih]
    cases hlast : lastValue fs key with
    | some v => simp [lastValue, hlast]
    | none =>
      simp only [lastValue, hlast]
      rw [lineStep_eq_fieldEntry]
      cases hf : fieldEntry f with
      | none => simp
      | some kv =>
        obtain ⟨k, v⟩ := kv
        by_cases hk : k = key <;> simp [lookupKey, hk]

/-- The map lookup of one parsed line equals the last binding of that
key among the line's fields. -/
theorem lineMap_lookup_eq_lastValue (line key : String) :
    lookupKey (lineMap line) key = lastValue (goSplit line ',') key := by
  unfold lineMap
  rw [foldl_lineStep_lookup]
  cases h : lastValue (goSplit line ',') key <;> simp [lookupKey]

/-! ### Deletion-loop lemmas -/

theorem sessionAttemptNames_append (a b : List Event) :
    sessionAttemptNames (a ++ b) = sessionAttemptNames a ++ sessionAttemptNames b := by
  simp [sessionAttemptNames, List.filterMap_append]

theorem sessionAttemptNames_perVM (w : SSHWorld) (i : Nat) (vm : InstanceInfo) :
    sessionAttemptNames (perVM w i vm) = [vm.InstanceName] := by
  by_cases h : w.sessionOk i = true
  · cases hc : w.cmdResult i <;> simp [perVM, sessionAttemptNames, h, hc]
  · simp [perVM, sessionAttemptNames, h]

/-- Every orphan of the list gets exactly one session attempt, in list
order, whatever the per-VM outcomes are. -/
theorem sessionAttemptNames_deletionLoop (w : SSHWorld) :
    ∀ (vms : List InstanceInfo) (i : Nat),
      sessionAttemptNames (deletionLoop w i vms) = vms.map InstanceInfo.InstanceName := by
  intro vms
  induction vms with
  | nil => intro i; simp [deletionLoop, sessionAttemptNames]
  | cons vm rest ih =>
    intro i
    rw [deletionLoop, sessionAttemptNames_append, sessionAttemptNames_perVM, ih, List.map_cons]
    rfl

/-- The events of the `k`-th orphan's iteration occur in the loop
trace. -/
theorem perVM_mem_deletionLoop (w : SSHWorld) :
    ∀ (vms : List InstanceInfo) (i k : Nat) (hk : k < vms.length) (e : Event),
      e ∈ perVM w (i + k) (vms.get ⟨k, hk⟩) → e ∈ deletionLoop w i vms := by
  intro vms
  induction vms with
  | nil => intro i k hk e; exact absurd hk (by simp)
  | cons vm rest ih =>
    intro i k hk e he
    cases k with
    | zero =>
      rw [deletionLoop]
      exact List.mem_append_left _ (by simpa using he)
    | succ k =>
      rw [deletionLoop]
      refine List.mem_append_right _ (ih (i + 1) k (by simpa using hk) e ?_)
      have harith : i + (k + 1) = (i + 1) + k := by omega
      simpa [harith] using he

/-! ### Claims -/

/-- C1, counterexample: the claim asserts case-insensitive matching for
the reconciliation function, but the simpler variant
(`cleanupvms.findMissingVms`) matches names exactly: with control-plane
set C = [{InstanceName := "VM1"}] and remote set R = [{Name := "vm1"}],
the names match case-insensitively (`equalFold "VM1" "vm1"`), so the
claim demands an empty result, yet the function returns the remote VM as
an orphan. -/
theorem c1_reconciliation_counterexample :
    equalFold "VM1" "vm1" = true ∧
    cleanupvms.findMissingVms [⟨"VM1", "tenant1", ""⟩] [⟨"vm1", "Running"⟩]
      = [⟨"vm1", "Unknown", "Running"⟩] := by
  decide

/-- C1 (amended): the hardened variant
(`cleannovastalevms.findMissingVms`) returns exactly the elements of R
whose name has no case-insensitive match among the instance names of C,
in R's order, each as a record carrying the remote name, tenant
"Unknown" and the remote power state; the simpler variant
(`cleanupvms.findMissingVms`) returns exactly the same set but under
exact (case-sensitive) name matching.  Neither returns elements of C:
every output record is built from an element of R. -/
theorem c1_reconciliation_amended :
    (∀ (C : List InstanceInfo) (R : List VM),
      cleannovastalevms.findMissingVms C R = specFindOrphans C R) ∧
    (∀ (C : List InstanceInfo) (R : List VM),
      cleanupvms.findMissingVms C R = specFindOrphansExact C R) :=
  ⟨findMissingVms_hardened_eq_spec, findMissingVms_simple_eq_specExact⟩

/-- C7: the reconciliation function of either variant is deterministic
and idempotent (a pure function of C and R, so repeated invocation gives
identical output), and its output is a filter-then-map of the remote
list R: the output order follows the input order of R with no sorting
applied — in particular the output names form a sublist of R's names. -/
theorem c7_reconciliation_deterministic_and_ordered :
    ∀ (C : List InstanceInfo) (R : List VM),
      cleannovastalevms.findMissingVms C R = cleannovastalevms.findMissingVms C R ∧
      cleanupvms.findMissingVms C R = cleanupvms.findMissingVms C R ∧
      cleannovastalevms.findMissingVms C R
        = (R.filter (fun r => !(C.any (fun c => equalFold c.InstanceName r.Name)))).map
            (fun r => ⟨r.Name, "Unknown", r.Status⟩) ∧
      cleanupvms.findMissingVms C R
        = (R.filter (fun r => !(C.any (fun c => c.InstanceName = r.Name)))).map
            (fun r => ⟨r.Name, "Unknown", r.Status⟩) ∧
      List.Sublist
        ((cleannovastalevms.findMissingVms C R).map InstanceInfo.InstanceName)
        (R.map VM.Name) := by
  intro C R
  refine ⟨rfl, rfl, findMissingVms_hardened_eq_spec C R,
    findMissingVms_simple_eq_specExact C R, ?_⟩
  rw [findMissingVms_hardened_eq_spec, specFindOrphans, List.map_map]
  exact (List.filter_sublist R).map _

/-- C5: parsing the raw remote inventory output
"name=vm1,state=Running\nname=ltc01-nova,state=Running\n\n" with the
management-partition exclusion (`awk '!/ltc.*-nova/'`) yields exactly
one record {Name := "vm1", Status := "Running"}: the management
partition line and the blank line contribute nothing.  In general a line
yields a record only if, after parsing, both the "name" and the "state"
keys are present in its field map (and the line is not blank after
trimming). -/
theorem c5_remote_inventory_parsing :
    fetchRemoteVMParse "name=vm1,state=Running\nname=ltc01-nova,state=Running\n\n"
      = [⟨"vm1", "Running"⟩] ∧
    (∀ (line : String) (vm : VM), parseLine line = some vm →
      trimSpace line ≠ "" ∧
      lookupKey (lineMap (trimSpace line)) "name" = some vm.Name ∧
      lookupKey (lineMap (trimSpace line)) "state" = some vm.Status) := by
  constructor
  · decide
  · intro line vm h
    unfold parseLine at h
    by_cases hb : trimSpace line = ""
    · rw [if_pos hb] at h
      exact absurd h (by simp)
    · rw [if_neg hb] at h
      refine ⟨hb, ?_⟩
      cases hn : lookupKey (lineMap (trimSpace line)) "name" with
      | none => rw [hn] at h; exact absurd h (by simp)
      | some name =>
        cases hs : lookupKey (lineMap (trimSpace line)) "state" with
        | none => rw [hn, hs] at h; exact absurd h (by simp)
        | some state =>
          rw [hn, hs] at h
          have hv : VM.mk name state = vm := by simpa using h
          rw [← hv]
          exact ⟨rfl, rfl⟩

/-- C5, witness: the general part applied to the concrete line
"name=vmA,state=Idle". -/
theorem c5_remote_inventory_parsing_witness :
    trimSpace "name=vmA,state=Idle" ≠ "" ∧
    lookupKey (lineMap (trimSpace "name=vmA,state=Idle")) "name" = some "vmA" ∧
    lookupKey (lineMap (trimSpace "name=vmA,state=Idle")) "state" = some "Idle" :=
  c5_remote_inventory_parsing.2 "name=vmA,state=Idle" ⟨"vmA", "Idle"⟩ (by decide)

/-- C10: in the remote-inventory line parser, (a) a comma-separated
field whose split on "=" does not yield exactly two parts leaves the
field map unchanged; (b) a field that splits into exactly two parts
binds its key and value trimmed of surrounding whitespace; (c) when the
same key appears in several fields, the lookup yields the value of the
last occurrence; (d) consequently the record emitted for a line (if
any) is determined by the last "name" and last "state" bindings of that
line. -/
theorem c10_field_map_semantics :
    (∀ (m : List (String × String)) (field : String),
      (goSplit field '=').length ≠ 2 → lineStep m field = m) ∧
    (∀ (m : List (String × String)) (field k v : String),
      goSplit field '=' = [k, v] →
      lineStep m field = (trimSpace k, trimSpace v) :: m) ∧
    (∀ (line key : String),
      lookupKey (lineMap line) key = lastValue (goSplit line ',') key) ∧
    (∀ rawLine : String,
      parseLine rawLine
        = if trimSpace rawLine = "" then none
          else
            match lastValue (goSplit (trimSpace rawLine) ',') "name",
                  lastValue (goSplit (trimSpace rawLine) ',') "state" with
            | some name, some state => some ⟨name, state⟩
            | _, _ => none) := by
  refine ⟨?_, ?_, lineMap_lookup_eq_lastValue, ?_⟩
  · intro m field h
    rw [lineStep_eq_fieldEntry, fieldEntry_eq_none_of_len field h]
  · intro m field k v h
    unfold lineStep
    rw [h]
  · intro rawLine
    unfold parseLine
    by_cases hb : trimSpace rawLine = ""
    · rw [if_pos hb, if_pos hb]
    · rw [if_neg hb, if_neg hb,
        lineMap_lookup_eq_lastValue (trimSpace rawLine) "name",
        lineMap_lookup_eq_lastValue (trimSpace rawLine) "state"]

/-- C10, witness: the malformed field "a=b=c" is ignored, the field
" name = x " is trimmed, and on the line "name=a,name=b,state=S" the
last "name" binding wins. -/
theorem c10_field_map_semantics_witness :
    lineStep [] "a=b=c" = [] ∧
    lineStep [] " name = x " = [("name", "x")] ∧
    lookupKey (lineMap "name=a,name=b,state=S") "name"
      = lastValue (goSplit "name=a,name=b,state=S" ',') "name" :=
  ⟨c10_field_map_semantics.1 [] "a=b=c" (by decide),
   by
     have h := c10_field_map_semantics.2.1 [] " name = x " " name " " x " (by decide)
     rw [h]
     decide,
   c10_field_map_semantics.2.2.1 "name=a,name=b,state=S" "name"⟩

/-- C2: with a non-empty orphan list and dryRun = true, either variant
of the cleanup executor reports exactly the given orphan entries as the
"would delete" list and stops: its whole trace is that single report, so
it dispatches zero deletion commands and opens no remote-shell
connection at all. -/
theorem c2_dry_run_reports_without_deleting :
    ∀ (w : SSHWorld) (response : String) (vms : List InstanceInfo)
      (outputFormat : String),
      vms ≠ [] →
      cleannovastalevms.deleteAbandonedVMs w response vms true outputFormat
        = [Event.dryRunReport vms] ∧
      cleanupvms.deleteAbandonedVMs w response vms true
        = [Event.dryRunReport vms] ∧
      countDeleteCmds (cleannovastalevms.deleteAbandonedVMs w response vms true outputFormat) = 0 ∧
      countDials (cleannovastalevms.deleteAbandonedVMs w response vms true outputFormat) = 0 ∧
      countDeleteCmds (cleanupvms.deleteAbandonedVMs w response vms true) = 0 ∧
      countDials (cleanupvms.deleteAbandonedVMs w response vms true) = 0 := by
  intro w response vms outputFormat h
  have h0 : ¬ vms.length = 0 := by simpa [List.length_eq_zero] using h
  simp [cleannovastalevms.deleteAbandonedVMs, cleanupvms.deleteAbandonedVMs, h0,
    countDeleteCmds, countDials, isDeleteCmdEvent, isDialEvent]

/-- C2, witness: the dry-run report for the two orphans of the spec's
example. -/
theorem c2_dry_run_reports_without_deleting_witness :
    cleannovastalevms.deleteAbandonedVMs
        ⟨true, fun _ => true, fun _ => Except.ok ""⟩ "x"
        [⟨"vm-orphaned1", "Unknown", "Running"⟩, ⟨"vm-orphaned2", "Unknown", "Running"⟩]
        true "table"
      = [Event.dryRunReport
          [⟨"vm-orphaned1", "Unknown", "Running"⟩, ⟨"vm-orphaned2", "Unknown", "Running"⟩]] :=
  (c2_dry_run_reports_without_deleting
    ⟨true, fun _ => true, fun _ => Except.ok ""⟩ "x"
    [⟨"vm-orphaned1", "Unknown", "Running"⟩, ⟨"vm-orphaned2", "Unknown", "Running"⟩]
    "table" (by simp)).1

/-- C3, counterexample: the claim names "confirm" as the confirmation
token of the cleanup executor, but the simpler variant
(`cleanupvms.deleteAbandonedVMs`) uses the token "yes": the response
"yes" is not the token "confirm" under case-insensitive comparison, yet
it reaches the confirmed branch and a deletion command is executed. -/
theorem c3_confirmation_token_counterexample :
    equalFold "yes" "confirm" = false ∧
    countDeleteCmds
      (cleanupvms.deleteAbandonedVMs
        ⟨true, fun _ => true, fun _ => Except.ok "done"⟩ "yes"
        [⟨"vm1", "Unknown", "Running"⟩] false) = 1 := by
  decide

/-- C3 (amended): the confirmation token is "confirm" in the hardened
variant and "yes" in the simpler variant.  In non-dry-run mode with a
non-empty orphan list, if the lower-cased response differs from the
variant's token the executor's trace is exactly the prompt followed by
the abort report — zero deletion commands, no remote-shell connection —
and conversely the confirmed branch (which opens the connection) is
reachable only when the lower-cased response equals the token. -/
theorem c3_confirmation_gate_amended :
    ∀ (w : SSHWorld) (response : String) (vms : List InstanceInfo)
      (outputFormat : String),
      vms ≠ [] →
      (lowerString response ≠ "confirm" →
        cleannovastalevms.deleteAbandonedVMs w response vms false outputFormat
          = [Event.prompt vms.length, Event.aborted]) ∧
      (Event.dialAttempt ∈ cleannovastalevms.deleteAbandonedVMs w response vms false outputFormat →
        lowerString response = "confirm") ∧
      (lowerString response ≠ "yes" →
        cleanupvms.deleteAbandonedVMs w response vms false
          = [Event.prompt vms.length, Event.aborted]) ∧
      (Event.dialAttempt ∈ cleanupvms.deleteAbandonedVMs w response vms false →
        lowerString response = "yes") := by
  intro w response vms outputFormat h
  have h0 : ¬ vms.length = 0 := by simpa [List.length_eq_zero] using h
  refine ⟨fun hne => by simp [cleannovastalevms.deleteAbandonedVMs, h0, hne],
    fun hmem => ?_,
    fun hne => by simp [cleanupvms.deleteAbandonedVMs, h0, hne],
    fun hmem => ?_⟩
  · by_contra hne
    rw [(by simp [cleannovastalevms.deleteAbandonedVMs, h0, hne] :
      cleannovastalevms.deleteAbandonedVMs w response vms false outputFormat
        = [Event.prompt vms.length, Event.aborted])] at hmem
    simp at hmem
  · by_contra hne
    rw [(by simp [cleanupvms.deleteAbandonedVMs, h0, hne] :
      cleanupvms.deleteAbandonedVMs w response vms false
        = [Event.prompt vms.length, Event.aborted])] at hmem
    simp at hmem

/-- C3, witness: a mistyped response ("no") makes the hardened executor
abort with the prompt-and-abort trace. -/
theorem c3_confirmation_gate_amended_witness :
    cleannovastalevms.deleteAbandonedVMs
        ⟨true, fun _ => true, fun _ => Except.ok ""⟩ "no"
        [⟨"vm1", "Unknown", "Running"⟩] false "table"
      = [Event.prompt 1, Event.aborted] :=
  (c3_confirmation_gate_amended
    ⟨true, fun _ => true, fun _ => Except.ok ""⟩ "no"
    [⟨"vm1", "Unknown", "Running"⟩] "table" (by simp)).1 (by decide)

/-- C4: once confirmed (lower-cased response equal to the variant's
token), both variants run the shared deletion phase: a dial failure
aborts the whole phase before any per-VM session attempt; otherwise
every orphan of the list gets its own session attempt, in list order,
regardless of the other VMs' outcomes; a VM whose session opens gets a
deletion-command dispatch; a failed command is recorded together with
its captured combined output; a failed session is recorded and the loop
continues. -/
theorem c4_confirmed_deletion_isolation :
    ∀ (w : SSHWorld) (response : String) (vms : List InstanceInfo)
      (outputFormat : String),
      vms ≠ [] →
      (lowerString response = "confirm" →
        cleannovastalevms.deleteAbandonedVMs w response vms false outputFormat
          = Event.prompt vms.length :: confirmedDeletionPhase w vms) ∧
      (lowerString response = "yes" →
        cleanupvms.deleteAbandonedVMs w response vms false
          = Event.prompt vms.length :: confirmedDeletionPhase w vms) ∧
      (w.dialOk = true →
        confirmedDeletionPhase w vms = Event.dialAttempt :: deletionLoop w 0 vms) ∧
      (w.dialOk = false →
        confirmedDeletionPhase w vms = [Event.dialAttempt, Event.dialFailed]) ∧
      sessionAttemptNames (deletionLoop w 0 vms) = vms.map InstanceInfo.InstanceName ∧
      (∀ (k : Nat) (hk : k < vms.length), w.sessionOk k = true →
        Event.deleteCmdRun (deleteCmd (vms.get ⟨k, hk⟩).InstanceName)
          ∈ deletionLoop w 0 vms) ∧
      (∀ (k : Nat) (hk : k < vms.length), w.sessionOk k = true →
        ∀ out : String, w.cmdResult k = Except.error out →
          Event.deleteFailed (vms.get ⟨k, hk⟩).InstanceName out
            ∈ deletionLoop w 0 vms) ∧
      (∀ (k : Nat) (hk : k < vms.length), w.sessionOk k = false →
        Event.sessionFailed (vms.get ⟨k, hk⟩).InstanceName
          ∈ deletionLoop w 0 vms) := by
  intro w response vms outputFormat h
  have h0 : ¬ vms.length = 0 := by simpa [List.length_eq_zero] using h
  refine ⟨fun hc => by simp [cleannovastalevms.deleteAbandonedVMs, h0, hc],
    fun hc => by simp [cleanupvms.deleteAbandonedVMs, h0, hc],
    fun hd => by simp [confirmedDeletionPhase, hd],
    fun hd => by simp [confirmedDeletionPhase, hd],
    sessionAttemptNames_deletionLoop w vms 0, ?_, ?_, ?_⟩
  · intro k hk hs
    refine perVM_mem_deletionLoop w vms 0 k hk _ ?_
    have hz : (0 : Nat) + k = k := Nat.zero_add k
    rw [hz, perVM, if_pos hs]
    cases hc : w.cmdResult k <;> simp
  · intro k hk hs out hout
    refine perVM_mem_deletionLoop w vms 0 k hk _ ?_
    have hz : (0 : Nat) + k = k := Nat.zero_add k
    rw [hz, perVM, if_pos hs, hout]
    simp
  · intro k hk hs
    refine perVM_mem_deletionLoop w vms 0 k hk _ ?_
    have hz : (0 : Nat) + k = k := Nat.zero_add k
    have hs2 : ¬ w.sessionOk k = true := by simp [hs]
    rw [hz, perVM, if_neg hs2]
    simp

/-- C4, witness: two orphans, the first VM's deletion command fails
with captured output "boom", the second succeeds: both get session
attempts, in order, and the first VM's failure is recorded with its
output. -/
theorem c4_confirmed_deletion_isolation_witness :
    sessionAttemptNames
        (deletionLoop
          ⟨true, fun _ => true,
            fun n => if n = 0 then Except.error "boom" else Except.ok ""⟩
          0 [⟨"vmA", "Unknown", "Running"⟩, ⟨"vmB", "Unknown", "Running"⟩])
      = ["vmA", "vmB"] ∧
    Event.deleteFailed "vmA" "boom"
      ∈ deletionLoop
          ⟨true, fun _ => true,
            fun n => if n = 0 then Except.error "boom" else Except.ok ""⟩
          0 [⟨"vmA", "Unknown", "Running"⟩, ⟨"vmB", "Unknown", "Running"⟩] := by
  have h := c4_confirmed_deletion_isolation
    ⟨true, fun _ => true, fun n => if n = 0 then Except.error "boom" else Except.ok ""⟩
    "confirm"
    [⟨"vmA", "Unknown", "Running"⟩, ⟨"vmB", "Unknown", "Running"⟩]
    "table" (by simp)
  exact ⟨h.2.2.2.2.1,
    h.2.2.2.2.2.2.1 0 (by decide) (by decide) "boom" (by rfl)⟩

/-! ### Per-project isolation lemmas -/

/-- Does the per-project server listing of `p` succeed? -/
def projectFetchOk (w : World) (p : Project) : Bool :=
  match w.serversForProject p.id with
  | .ok _ => true
  | .error _ => false

/-- The aggregation loop ignores projects whose fetch fails: folding
over the whole list equals folding over the successful projects only,
from any accumulator. -/
theorem cpAggregate_skips_failed_aux (w : World) (hyp : String) :
    ∀ (ps : List Project) (acc : List InstanceInfo),
      ps.foldl (cpStep w hyp) acc
        = (ps.filter (projectFetchOk w)).foldl (cpStep w hyp) acc := by
  intro ps
  induction ps with
  | nil => intro acc; rfl
  | cons p rest ih =>
    intro acc
    cases hs : w.serversForProject p.id with
    | error e =>
      have h1 : projectFetchOk w p = false := by simp [projectFetchOk, hs]
      have h2 : cpStep w hyp acc p = acc := by
        simp [cpStep, fetchVMsForProject, hs]
      rw [List.foldl_cons, h2, List.filter_cons, h1]
      simpa using ih acc
    | ok sl =>
      have h1 : projectFetchOk w p = true := by simp [projectFetchOk, hs]
      rw [List.foldl_cons, List.filter_cons, h1]
      simpa using ih (cpStep w hyp acc p)

/-- A project whose fetch fails contributes zero instances. -/
theorem cpAggregate_skips_failed (w : World) (hyp : String) (ps : List Project) :
    cpAggregate w hyp ps = cpAggregate w hyp (ps.filter (projectFetchOk w)) :=
  cpAggregate_skips_failed_aux w hyp ps []

/-- C6: in either control-plane inventory reader, when the project
listing succeeds, the listing returns a (non-error) result however many
per-project fetches fail, and a project whose fetch fails is skipped,
contributing zero instances (the aggregate equals the aggregate over
the successful projects only); only top-level failures — the project
listing itself, or (in the simpler variant) the region/compute-client
setup — make the listing return an error. -/
theorem c6_per_project_failure_isolation :
    ∀ (w : World) (hypervisorHostname : String),
      (∀ ps : List Project, w.projectsResult = Except.ok ps →
        cleannovastalevms.fetchOpenStackVMList w hypervisorHostname
          = Except.ok (cpAggregate w hypervisorHostname ps) ∧
        (w.regionName ≠ "" → w.computeClientOk = true →
          cleanupvms.fetchOpenStackVMList w hypervisorHostname
            = Except.ok (cpAggregate w hypervisorHostname ps)) ∧
        cpAggregate w hypervisorHostname ps
          = cpAggregate w hypervisorHostname (ps.filter (projectFetchOk w))) ∧
      (∀ e : String, w.projectsResult = Except.error e →
        cleannovastalevms.fetchOpenStackVMList w hypervisorHostname
          = Except.error ("error fetching projects: " ++ e) ∧
        (w.regionName ≠ "" → w.computeClientOk = true →
          cleanupvms.fetchOpenStackVMList w hypervisorHostname
            = Except.error ("error fetching projects: " ++ e))) := by
  intro w hyp
  constructor
  · intro ps hps
    exact ⟨by simp [cleannovastalevms.fetchOpenStackVMList, hps],
      fun hr hc => by simp [cleanupvms.fetchOpenStackVMList, hr, hc, hps],
      cpAggregate_skips_failed w hyp ps⟩
  · intro e he
    exact ⟨by simp [cleannovastalevms.fetchOpenStackVMList, he],
      fun hr hc => by simp [cleanupvms.fetchOpenStackVMList, hr, hc, he]⟩

/-- C6, witness: two projects, the first one's fetch fails and is
skipped; the listing still succeeds and returns the second project's
instance. -/
theorem c6_per_project_failure_isolation_witness :
    cleannovastalevms.fetchOpenStackVMList
        ⟨"regA", true, true, true, Except.ok [], Except.ok [⟨"p1", "one"⟩, ⟨"p2", "two"⟩],
          fun pid => if pid = "p1" then Except.error "boom"
                     else Except.ok [⟨"srv1", "inst-2", "hostX"⟩],
          Except.ok "", ⟨true, fun _ => true, fun _ => Except.ok ""⟩, ""⟩
        "hostX"
      = Except.ok [⟨"inst-2", "two", ""⟩] := by
  have h := (c6_per_project_failure_isolation
      ⟨"regA", true, true, true, Except.ok [], Except.ok [⟨"p1", "one"⟩, ⟨"p2", "two"⟩],
        fun pid => if pid = "p1" then Except.error "boom"
                   else Except.ok [⟨"srv1", "inst-2", "hostX"⟩],
        Except.ok "", ⟨true, fun _ => true, fun _ => Except.ok ""⟩, ""⟩
      "hostX").1 [⟨"p1", "one"⟩, ⟨"p2", "two"⟩] rfl
  rw [h.1]
  rfl

/-- C8, counterexample: in the simpler variant, with OS_REGION_NAME
unset the run does fail, but not before any inventory fetch: both
inventory fetch goroutines are launched (in particular the remote SSH
inventory fetch is attempted) before the missing region surfaces as the
control-plane fetch error after the join. -/
theorem c8_region_unset_counterexample :
    (cleanupvms.Run
        ⟨"", true, true, true, Except.ok [⟨"9.9.9.9", "host1"⟩], Except.ok [],
          fun _ => Except.ok [], Except.ok "",
          ⟨true, fun _ => true, fun _ => Except.ok ""⟩, ""⟩
        "9.9.9.9" false).fst
      = Except.error "error fetching OpenStack VM list: OS_REGION_NAME not set" ∧
    Event.remoteFetchAttempt ∈
      (cleanupvms.Run
        ⟨"", true, true, true, Except.ok [⟨"9.9.9.9", "host1"⟩], Except.ok [],
          fun _ => Except.ok [], Except.ok "",
          ⟨true, fun _ => true, fun _ => Except.ok ""⟩, ""⟩
        "9.9.9.9" false).snd := by
  constructor
  · rfl
  · exact List.mem_cons_of_mem _ (List.mem_cons_self _ _)

/-- C8 (amended): with OS_REGION_NAME unset, the hardened variant's run
fails at the very start with the configuration error, before anything
is attempted (empty trace); the simpler variant's run also fails with a
fatal error, and performs no destructive action (no deletion command,
no deletion-phase connection), but the failure surfaces only from the
control-plane fetch, after both inventory fetches have been launched. -/
theorem c8_region_unset_amended :
    ∀ (w : World) (ip outputFormat : String) (dryRun : Bool),
      w.regionName = "" →
      cleannovastalevms.Run w ip outputFormat dryRun
        = (Except.error "OS_REGION_NAME not set", ([] : List Event)) ∧
      (∃ e : String, (cleanupvms.Run w ip dryRun).fst = Except.error e) ∧
      countDeleteCmds (cleanupvms.Run w ip dryRun).snd = 0 ∧
      countDials (cleanupvms.Run w ip dryRun).snd = 0 := by
  intro w ip outputFormat dryRun h
  refine ⟨by simp [cleannovastalevms.Run, h], ?_⟩
  by_cases ha : w.authOk
  · by_cases hi : w.identityClientOk
    · cases hh : w.hypervisorsResult with
      | error e =>
        have hrun : cleanupvms.Run w ip dryRun
            = (Except.error ("error fetching hypervisor list: " ++ e), []) := by
          simp [cleanupvms.Run, ha, hi, hh]
        rw [hrun]; exact ⟨⟨_, rfl⟩, rfl, rfl⟩
      | ok hl =>
        by_cases hr : resolveHostname ip hl = ""
        · have hrun : cleanupvms.Run w ip dryRun
              = (Except.error ("no matching hypervisor found for IP: " ++ ip), []) := by
            simp [cleanupvms.Run, ha, hi, hh, hr]
          rw [hrun]; exact ⟨⟨_, rfl⟩, rfl, rfl⟩
        · have hcp : cleanupvms.fetchOpenStackVMList w (resolveHostname ip hl)
              = Except.error "OS_REGION_NAME not set" := by
            simp [cleanupvms.fetchOpenStackVMList, h]
          have hrun : cleanupvms.Run w ip dryRun
              = (Except.error ("error fetching OpenStack VM list: "
                    ++ "OS_REGION_NAME not set"),
                  [Event.cpFetchAttempt, Event.remoteFetchAttempt]) := by
            simp [cleanupvms.Run, ha, hi, hh, hr, hcp]
          rw [hrun]; exact ⟨⟨_, rfl⟩, rfl, rfl⟩
    · have hrun : cleanupvms.Run w ip dryRun
          = (Except.error "authentication error", []) := by
        simp [cleanupvms.Run, ha, hi]
      rw [hrun]; exact ⟨⟨_, rfl⟩, rfl, rfl⟩
  · have hrun : cleanupvms.Run w ip dryRun
        = (Except.error "error authenticating OpenStack", []) := by
      simp [cleanupvms.Run, ha]
    rw [hrun]; exact ⟨⟨_, rfl⟩, rfl, rfl⟩

/-- C8, witness: the hardened run with the region unset stops at once
with the configuration error and an empty trace. -/
theorem c8_region_unset_amended_witness :
    cleannovastalevms.Run
        ⟨"", true, true, true, Except.ok [], Except.ok [], fun _ => Except.ok [],
          Except.ok "", ⟨true, fun _ => true, fun _ => Except.ok ""⟩, ""⟩
        "1.2.3.4" "table" false
      = (Except.error "OS_REGION_NAME not set", ([] : List Event)) :=
  (c8_region_unset_amended
    ⟨"", true, true, true, Except.ok [], Except.ok [], fun _ => Except.ok [],
      Except.ok "", ⟨true, fun _ => true, fun _ => Except.ok ""⟩, ""⟩
    "1.2.3.4" "table" false rfl).1

/-- C9: whenever the pre-fetch steps and both inventory fetches
succeed, either variant's `Run` returns success — the deletion phase
(`deleteAbandonedVMs`) returns no value, so a deletion-phase connection
failure, per-VM session failures or failing deletion commands (all left
arbitrary in the environment here) never change `Run`'s result. -/
theorem c9_run_ok_when_both_fetches_succeed :
    ∀ (w : World) (ip outputFormat : String) (dryRun : Bool)
      (hl : List Hypervisor) (ps : List Project) (raw : String),
      w.regionName ≠ "" → w.authOk = true → w.identityClientOk = true →
      w.computeClientOk = true →
      w.hypervisorsResult = Except.ok hl →
      resolveHostname ip hl ≠ "" →
      w.projectsResult = Except.ok ps →
      w.remoteRaw = Except.ok raw →
      (cleannovastalevms.Run w ip outputFormat dryRun).fst = Except.ok () ∧
      (cleanupvms.Run w ip dryRun).fst = Except.ok () := by
  intro w ip outputFormat dryRun hl ps raw hreg ha hi hc hh hr hp hraw
  have hcp1 : cleannovastalevms.fetchOpenStackVMList w (resolveHostname ip hl)
      = Except.ok (cpAggregate w (resolveHostname ip hl) ps) := by
    simp [cleannovastalevms.fetchOpenStackVMList, hp]
  have hcp2 : cleanupvms.fetchOpenStackVMList w (resolveHostname ip hl)
      = Except.ok (cpAggregate w (resolveHostname ip hl) ps) := by
    simp [cleanupvms.fetchOpenStackVMList, hreg, hc, hp]
  have hrem : fetchRemoteVMListSSH w = Except.ok (fetchRemoteVMParse raw) := by
    simp [fetchRemoteVMListSSH, hraw]
  constructor
  · simp [cleannovastalevms.Run, hreg, hh, hr, hcp1, hrem, apply_ite]
  · simp [cleanupvms.Run, ha, hi, hh, hr, hcp2, hrem, apply_ite]

/-- C9, witness: both fetches succeed, the remote inventory reports an
orphan, and the deletion-phase environment fails everywhere (dial,
sessions, commands); both runs still return success. -/
theorem c9_run_ok_when_both_fetches_succeed_witness :
    (cleannovastalevms.Run
        ⟨"regA", true, true, true, Except.ok [⟨"1.2.3.4", "host1"⟩], Except.ok [],
          fun _ => Except.ok [], Except.ok "name=ghost,state=Running",
          ⟨false, fun _ => false, fun _ => Except.error "fail"⟩, "confirm"⟩
        "1.2.3.4" "table" false).fst = Except.ok () ∧
    (cleanupvms.Run
        ⟨"regA", true, true, true, Except.ok [⟨"1.2.3.4", "host1"⟩], Except.ok [],
          fun _ => Except.ok [], Except.ok "name=ghost,state=Running",
          ⟨false, fun _ => false, fun _ => Except.error "fail"⟩, "confirm"⟩
        "1.2.3.4" false).fst = Except.ok () :=
  c9_run_ok_when_both_fetches_succeed
    ⟨"regA", true, true, true, Except.ok [⟨"1.2.3.4", "host1"⟩], Except.ok [],
      fun _ => Except.ok [], Except.ok "name=ghost,state=Running",
      ⟨false, fun _ => false, fun _ => Except.error "fail"⟩, "confirm"⟩
    "1.2.3.4" "table" false [⟨"1.2.3.4", "host1"⟩] [] "name=ghost,state=Running"
    (by decide) rfl rfl rfl rfl (by decide) rfl rfl

end OpenStackTool
